import Mathlib

/-!
Shallow embedding of the templater lifecycle engine
(`src/templater/mod.rs`): the archive codec (tar/gzip builder and
extractor), the metadata store operations, the Create / Expand / Edit
flows and the tree renderer, together with theorems settling the
specification's claims about them.

Modelling conventions: machine timestamps (`SystemTime`) are `Nat`;
the sled database and the `archives` directory are association lists
keyed by template name; compiled glob matchers are boolean predicates
on relative paths; spawned process statuses are given by an `exec`
oracle; a Rust `unwrap` panic is the `ROut.panic` outcome.
-/

namespace Templater

/-- A path relative to the template's source root, as a component list. -/
abbrev RelPath := List String

/-- Content of a walked filesystem entry: a directory marker or a file
with its byte content (modelled as a string). -/
inductive EntryData where
  | dir : EntryData
  | file (contents : String) : EntryData
deriving Repr, DecidableEq

/-- One walked entry: its path relative to the source root plus its data.
A source tree (the output of `WalkDir`, in traversal order) is a
`List FsEntry`. -/
structure FsEntry where
  path : RelPath
  data : EntryData
deriving Repr, DecidableEq

/-- The `Template` metadata record of `mod.rs` (note: it has no `ignore`
field; ignore patterns are used only at capture time). -/
structure Template where
  name : String
  description : Option String
  commands : List String
  compressed_size : Nat
  created : Nat
  used : Option Nat
deriving Repr, DecidableEq

/-- The error enum of `error.rs`, extended with the two anyhow-level
failures the flows can surface: `InvalidPattern` for a glob that fails
to compile (`GlobBuilder::build` error, wrapped with context in
`create_template`) and `IoFailure` for propagated I/O errors. -/
inductive Error where
  | TemplateNotFound (name : String)
  | InvalidTemplateDir (path : String)
  | TemplateExists (name : String)
  | CreateTemplate (cmd : String)
  | InvalidArgument (msg : String)
  | EditTemplate (msg : String)
  | InvalidPattern (pattern : String)
  | IoFailure (msg : String)
deriving Repr, DecidableEq

/-- Outcome of running a flow: normal return, error return, or a Rust
panic (an `unwrap` on `None`). -/
inductive ROut (α : Type) where
  | ok (a : α)
  | err (e : Error)
  | panic
deriving Repr, DecidableEq

/-- Association-list lookup, modelling `sled::Db::get` / file lookup. -/
def alGet {α : Type} : List (String × α) → String → Option α
  | [], _ => none
  | (k, v) :: rest, key => if k = key then some v else alGet rest key

/-- Remove a key, modelling `sled::Db::remove` / `fs::remove_file`. -/
def alRemove {α : Type} (l : List (String × α)) (key : String) : List (String × α) :=
  l.filter (fun p => p.1 != key)

/-- Insert-or-overwrite, modelling `sled::Db::insert` (and
`File::create`, which truncates an existing file). -/
def alInsert {α : Type} (l : List (String × α)) (key : String) (v : α) : List (String × α) :=
  (key, v) :: alRemove l key

/-- Key-presence test, modelling `sled::Db::contains_key`. -/
def alContains {α : Type} (l : List (String × α)) (key : String) : Bool :=
  (alGet l key).isSome

/-- State of one archive artifact file: freshly created/truncated and
still empty (`File::create` has run but nothing was written), or a
finished gzipped tarball holding the given entries. -/
inductive ArchiveFile where
  | empty : ArchiveFile
  | packed (entries : List FsEntry) : ArchiveFile
deriving Repr, DecidableEq

/-- The system state threaded through the flows: the metadata store,
the `archives` directory (keyed by template name, standing for
`<storage>/archives/<name>.tar.gz`), the set of existing user paths
(for the destination-exists check) and the process working directory. -/
structure Sys where
  db : List (String × Template)
  archives : List (String × ArchiveFile)
  existing : List String
  cwd : String
deriving Repr, DecidableEq

/-- A path is excluded iff at least one compiled matcher matches it
(`ignore_list.iter().any(|matcher| matcher.is_match(path))`). -/
def excludedBy (ms : List (RelPath → Bool)) (p : RelPath) : Bool :=
  ms.any (fun m => m p)

/-- The tar/gzip encode loop of `create_template`: walk the tree in
traversal order and append every entry whose walked path no matcher
matches, files by content and directories as structural entries, under
its path relative to the source root. -/
def create_archive (ms : List (RelPath → Bool)) (tree : List FsEntry) : List FsEntry :=
  tree.filter (fun e => !(excludedBy ms e.path))

/-- The proper prefixes of a path, shortest first: the ancestor
directories tar must materialize to place the entry. -/
def properPrefixes (p : RelPath) : List RelPath :=
  (List.range p.length).map (fun i => p.take i)

/-- Paths produced on disk by unpacking one tar entry: its ancestor
directories (created implicitly by the extractor) and the entry itself. -/
def unpack_entry (e : FsEntry) : List FsEntry :=
  (properPrefixes e.path).map (fun q => { path := q, data := EntryData.dir }) ++ [e]

/-- The `Archive::unpack` decode of `expand_template`: the set of
filesystem entries existing under the destination after extracting
every archive entry. -/
def unpack_archive (ar : List FsEntry) : List FsEntry :=
  ar.foldr (fun e acc => unpack_entry e ++ acc) []

/-- Well-formedness of a walked tree: walked paths are distinct, and
every proper prefix of a walked path is itself walked, as a directory. -/
def wfTree (t : List FsEntry) : Prop :=
  (t.map FsEntry.path).Nodup ∧
  ∀ e ∈ t, ∀ i, i < e.path.length →
    ∃ e' ∈ t, e'.path = e.path.take i ∧ e'.data = EntryData.dir

/-- The ignore set is descendant-closed on the tree: whenever an
ancestor of a walked path is excluded, the path itself is excluded. -/
def descClosed (ms : List (RelPath → Bool)) (t : List FsEntry) : Prop :=
  ∀ e ∈ t, ∀ i, i < e.path.length →
    excludedBy ms (e.path.take i) = true → excludedBy ms e.path = true

/-- Byte length of the finished artifact as recorded in
`compressed_size`; the exact gzip length is external, so it is
abstracted as a function of the packed entries. -/
def archiveSize (ar : List FsEntry) : Nat := ar.length

/-- The `TemplateDefinition` document parsed during Create. -/
structure TemplateDefinition where
  name : Option String
  description : Option String
  commands : List String
  ignore : List String
deriving Repr, DecidableEq

/-- The CLI/definition merge of `create_template` (lines 451-521): with
a definition, name falls back CLI → definition → source directory base
name, description falls back CLI → definition, and each list falls back
to the definition's list exactly when the CLI list is empty and the
definition's is not; without a definition the CLI values are used with
the base-name fallback for the name. -/
def mergeConfig (dirBase : String) (name : Option String) (description : Option String)
    (commands : List String) (ignore : List String) (defn : Option TemplateDefinition) :
    TemplateDefinition :=
  match defn with
  | some d =>
      { name := some (name.getD (d.name.getD dirBase))
        description := match description with
          | some x => some x
          | none => d.description
        commands := if commands.length = 0 ∧ d.commands.length ≠ 0 then d.commands else commands
        ignore := if ignore.length = 0 ∧ d.ignore.length ≠ 0 then d.ignore else ignore }
  | none =>
      { name := some (name.getD dirBase)
        description := description
        commands := commands
        ignore := ignore }

/-- The merged template name actually used as the store key
(`config.name.unwrap()`; the merge always produces `some`, so the
default is never hit). -/
def mergedName (dirBase : String) (name : Option String) (description : Option String)
    (commands : List String) (ignore : List String) (defn : Option TemplateDefinition) :
    String :=
  (mergeConfig dirBase name description commands ignore defn).name.getD dirBase

/-- Compile every ignore pattern in order
(`collect::<Result<Vec<GlobMatcher>>>`): the first pattern the `compile`
oracle rejects aborts the collection with that pattern. -/
def compilePatterns (compile : String → Option (RelPath → Bool)) :
    List String → Except String (List (RelPath → Bool))
  | [] => Except.ok []
  | p :: ps =>
    match compile p with
    | none => Except.error p
    | some m =>
      match compilePatterns compile ps with
      | Except.error q => Except.error q
      | Except.ok ms => Except.ok (m :: ms)

/-- The `create_template` flow (lines 390-631), in the code's order:
merge the configuration, check name collision (`TemplateExists` unless
forced), `File::create` the artifact (leaving an empty/truncated file),
compile the ignore patterns (aborting on the first bad one), pack the
filtered walk into the artifact, then insert the metadata record with
the artifact's size, `created := now` and `used := none`. The source
directory is given as its walked tree plus its base name. -/
def create_template (compile : String → Option (RelPath → Bool)) (s : Sys)
    (tree : List FsEntry) (dirBase : String) (name : Option String)
    (description : Option String) (commands : List String) (ignore : List String)
    (defn : Option TemplateDefinition) (force : Bool) (now : Nat) :
    ROut Unit × Sys :=
  let config := mergeConfig dirBase name description commands ignore defn
  let nm := config.name.getD dirBase
  if alContains s.db nm && !force then (ROut.err (Error.TemplateExists nm), s)
  else
    let s1 := { s with archives := alInsert s.archives nm ArchiveFile.empty }
    match compilePatterns compile config.ignore with
    | Except.error p => (ROut.err (Error.InvalidPattern p), s1)
    | Except.ok ms =>
      let ar := create_archive ms tree
      let s2 := { s1 with archives := alInsert s1.archives nm (ArchiveFile.packed ar) }
      let tpl : Template :=
        { name := nm
          description := config.description
          commands := config.commands
          compressed_size := archiveSize ar
          created := now
          used := none }
      (ROut.ok (), { s2 with db := alInsert s2.db nm tpl })

/-- Helper for `tokenize`: scan the characters, accumulating the
current (reversed) word and flushing it at whitespace, so that exactly
the maximal nonempty runs of non-whitespace characters are produced. -/
def splitWsAux : List Char → List Char → List String
  | [], acc => if acc.isEmpty then [] else [String.mk acc.reverse]
  | c :: cs, acc =>
    if c.isWhitespace then
      (if acc.isEmpty then [] else [String.mk acc.reverse]) ++ splitWsAux cs []
    else splitWsAux cs (c :: acc)

/-- `split_whitespace` tokenization of one command line: the
whitespace-separated words, with no empty tokens. -/
def tokenize (c : String) : List String :=
  splitWsAux c.toList []

/-- The command loop of `expand_template` (lines 347-384): tokenize each
command (the `unwrap` of the first token panics on a blank line), run it
through the `exec` oracle, and abort with `CreateTemplate` naming the
executable of the first command whose status is non-zero. Also returns
the list of command lines actually started, in order. -/
def runCommands (exec : String → List String → Bool) :
    List String → ROut Unit × List String
  | [] => (ROut.ok (), [])
  | c :: rest =>
    match tokenize c with
    | [] => (ROut.panic, [])
    | cmd :: args =>
      if exec cmd args then
        let r := runCommands exec rest
        (r.1, c :: r.2)
      else
        (ROut.err (Error.CreateTemplate cmd), [c])

/-- Render a relative path under a base directory string. -/
def joinPath (base : String) (p : RelPath) : String :=
  p.foldl (fun acc c => acc ++ "/" ++ c) base

/-- The `expand_template` flow (lines 287-388), in the code's order:
look up the record (`TemplateNotFound` on a miss), set `used := now` and
persist the record back at once, open the artifact (I/O error if absent,
and unpacking a still-empty artifact fails as a corrupt gzip stream),
refuse an existing destination (`InvalidTemplateDir`), create it, unpack
the archive into it, stop on `no_exec`, else save the working directory,
move into the destination and run the command loop; the saved directory
is restored only after the whole loop succeeds (the error return inside
the loop leaves the process in the destination). Returns the outcome,
the final state and the trace of started commands. -/
def expand_template (exec : String → List String → Bool) (s : Sys) (name : String)
    (path : Option String) (create_as : Option String) (no_exec : Bool) (now : Nat) :
    ROut Unit × Sys × List String :=
  match alGet s.db name with
  | none => (ROut.err (Error.TemplateNotFound name), s, [])
  | some t0 =>
    let t := { t0 with used := some now }
    let s1 := { s with db := alInsert s.db name t }
    let parent := path.getD "."
    let createAs := create_as.getD name
    match alGet s1.archives name with
    | none => (ROut.err (Error.IoFailure ("open " ++ name)), s1, [])
    | some af =>
      let newPath := parent ++ "/" ++ createAs
      if newPath ∈ s1.existing then
        (ROut.err (Error.InvalidTemplateDir newPath), s1, [])
      else
        let s2 := { s1 with existing := newPath :: s1.existing }
        match af with
        | ArchiveFile.empty => (ROut.err (Error.IoFailure "unpack"), s2, [])
        | ArchiveFile.packed ar =>
          let s3 := { s2 with
            existing := (unpack_archive ar).map (fun e => joinPath newPath e.path) ++ s2.existing }
          if no_exec then (ROut.ok (), s3, [])
          else
            let cwd0 := s3.cwd
            let s4 := { s3 with cwd := newPath }
            let r := runCommands exec t.commands
            match r.1 with
            | ROut.ok _ => (ROut.ok (), { s4 with cwd := cwd0 }, r.2)
            | ROut.err e => (ROut.err e, s4, r.2)
            | ROut.panic => (ROut.panic, s4, r.2)

/-- The round-trip document of Edit after a successful editor run and
re-parse: the reduced projection of the record. -/
structure TemplateEditFile where
  name : String
  description : Option String
  commands : List String
deriving Repr, DecidableEq

/-- The `edit_template` flow (lines 633-695) after a successful editor
round-trip producing `edited`: look up the record (`TemplateNotFound` on
a miss), overlay the edited name/description/commands onto the original
size and timestamps, persist the result under the original key, then
`fs::rename` the artifact from the original name to the edited name
(an I/O error if the artifact is missing, with the record already
updated), and finally run the trailing `list_templates` (a substring
scan, never an error) and `list_commands` on the edited name: that last
lookup uses the new name as a store key, so a name-changing edit whose
new name is not a key returns `TemplateNotFound` even though every
update is already persisted. -/
def edit_template (s : Sys) (name : String) (edited : TemplateEditFile) :
    ROut Unit × Sys :=
  match alGet s.db name with
  | none => (ROut.err (Error.TemplateNotFound name), s)
  | some t =>
    let t' : Template :=
      { name := edited.name
        description := edited.description
        commands := edited.commands
        compressed_size := t.compressed_size
        created := t.created
        used := t.used }
    let s1 := { s with db := alInsert s.db name t' }
    match alGet s1.archives name with
    | none => (ROut.err (Error.IoFailure "rename"), s1)
    | some a =>
      let s2 := { s1 with archives := alInsert (alRemove s1.archives name) edited.name a }
      match alGet s2.db edited.name with
      | none => (ROut.err (Error.TemplateNotFound edited.name), s2)
      | some _ => (ROut.ok (), s2)

/-- The stack-pop loop of `print_tar_tree`: pop while the top's recorded
depth is at least the new entry's depth. -/
def popWhile (depth : Nat) : List (String × Nat) → List (String × Nat)
  | [] => []
  | (p, d) :: rest => if depth ≤ d then popWhile depth rest else (p, d) :: rest

/-- The body of `print_tar_tree` (lines 221-271): iterate over the
entries with their index, keeping the directory-prefix stack (top
first), the previous depth and the first-entry flag, and emit one line
per entry. -/
def treeLines (total : Nat) :
    Nat → List (String × Nat) → Nat → Bool → List (RelPath × Bool) → List String
  | _, _, _, _, [] => []
  | i, stack, lastDepth, isFirst, (p, isDir) :: rest =>
    let depth := p.length
    let stack1 := popWhile depth stack
    let fileName := (p.getLast?).getD ""
    let pre := ((stack1.head?).getD ("", 0)).1
    let connector :=
      if i = total - 1 ∨ (depth ≠ lastDepth ∧ isFirst = false) then "└── " else "├── "
    let line := if isFirst then fileName else pre ++ connector ++ fileName
    let stack2 :=
      if isDir then
        (if i = total - 1 ∨ depth ≠ lastDepth then (pre ++ "    ", depth)
         else (pre ++ "│   ", depth)) :: stack1
      else stack1
    line :: treeLines total (i + 1) stack2 depth false rest

/-- `print_tar_tree`: render the archive's entry sequence (each entry
its component path, with the flag marking a directory header) as the
emitted lines, starting from the sentinel stack, depth 0 and the
first-entry flag. -/
def print_tar_tree (entries : List (RelPath × Bool)) : List String :=
  treeLines entries.length 0 [("", 0)] 0 true entries

/-- Modelled from the spec: the name-precedence rule of §4.2, "Final
`name` = CLI name, else definition name, else source directory's final
path component", written from the spec's words for comparison with the
code's merge. -/
def specFinalName (dirBase : String) (cliName : Option String)
    (defn : Option TemplateDefinition) : String :=
  match cliName with
  | some n => n
  | none =>
    match defn with
    | some d =>
      match d.name with
      | some m => m
      | none => dirBase
    | none => dirBase

/-- Ordering on optional timestamps: an absent timestamp never exceeds
anything, a present one must not decrease. -/
def timeLe : Option Nat → Option Nat → Prop
  | none, _ => True
  | some _, none => False
  | some a, some b => a ≤ b

instance decWfTree (t : List FsEntry) : Decidable (wfTree t) := by
  unfold wfTree
  infer_instance

instance decDescClosed (ms : List (RelPath → Bool)) (t : List FsEntry) :
    Decidable (descClosed ms t) := by
  unfold descClosed
  infer_instance

instance decTimeLe (a b : Option Nat) : Decidable (timeLe a b) := by
  unfold timeLe
  rcases a with _ | a <;> rcases b with _ | b <;> infer_instance

/-- Fixture: a three-entry source tree whose subdirectory `sub` holds
one file. -/
def exTree : List FsEntry :=
  [⟨[], EntryData.dir⟩, ⟨["sub"], EntryData.dir⟩, ⟨["sub", "f"], EntryData.file "x"⟩]

/-- Fixture: one matcher matching exactly the directory `sub` and not
its contents. -/
def exMatchExact : List (RelPath → Bool) := [fun p => p == ["sub"]]

/-- Fixture: one matcher matching `sub` together with everything under
it (a descendant-closed exclusion). -/
def exMatchSubtree : List (RelPath → Bool) := [fun p => List.isPrefixOf ["sub"] p]

/-- Fixture: a stored template whose single command fails. -/
def exTplFail : Template :=
  { name := "t", description := none, commands := ["false"],
    compressed_size := 3, created := 1, used := none }

/-- Fixture: a system holding `exTplFail` and its packed artifact, with
the process sitting in `/home/u`. -/
def exSysFail : Sys :=
  { db := [("t", exTplFail)],
    archives := [("t", ArchiveFile.packed [⟨[], EntryData.dir⟩])],
    existing := [], cwd := "/home/u" }

/-- Fixture: a stored template whose first command fails and whose
second command line is whitespace-only. -/
def exTplBlankSecond : Template :=
  { name := "t", description := none, commands := ["doit", " "],
    compressed_size := 3, created := 1, used := none }

/-- Fixture: a system holding `exTplBlankSecond` and its packed
artifact. -/
def exSysBlankSecond : Sys :=
  { db := [("t", exTplBlankSecond)],
    archives := [("t", ArchiveFile.packed [⟨[], EntryData.dir⟩])],
    existing := [], cwd := "/home/u" }

/-- Fixture: a stored template with the command sequence
`["true", "false", "true"]`. -/
def exTplSeq : Template :=
  { name := "t", description := none, commands := ["true", "false", "true"],
    compressed_size := 3, created := 1, used := none }

/-- Fixture: a system holding `exTplSeq` and its packed artifact. -/
def exSysSeq : Sys :=
  { db := [("t", exTplSeq)],
    archives := [("t", ArchiveFile.packed [⟨[], EntryData.dir⟩])],
    existing := [], cwd := "/home/u" }

/-- Fixture: a stored template whose only command line is empty. -/
def exTplBlank : Template :=
  { name := "t", description := none, commands := [""],
    compressed_size := 3, created := 1, used := none }

/-- Fixture: a system holding `exTplBlank` and its packed artifact. -/
def exSysBlank : Sys :=
  { db := [("t", exTplBlank)],
    archives := [("t", ArchiveFile.packed [⟨[], EntryData.dir⟩])],
    existing := [], cwd := "/home/u" }

/-- Fixture: a process-status oracle under which exactly the command
`true` exits with status zero. -/
def exExecTrue : String → List String → Bool := fun n _ => n == "true"

/-- Fixture: an empty system (no records, no artifacts). -/
def exSysEmpty : Sys := { db := [], archives := [], existing := [], cwd := "/" }

/-- Fixture: a glob-compile oracle under which every pattern compiles,
to a matcher matching nothing. -/
def exCompileAll : String → Option (RelPath → Bool) := fun _ => some (fun _ => false)

/-- Fixture: a glob-compile oracle under which no pattern compiles. -/
def exCompileNone : String → Option (RelPath → Bool) := fun _ => none

/-- Fixture: a definition document supplying the name `bar`. -/
def exDefnBar : TemplateDefinition :=
  { name := some "bar", description := none, commands := [], ignore := [] }

/-! ## Store lemmas -/

theorem alGet_alInsert_self {α : Type} (l : List (String × α)) (k : String) (v : α) :
    alGet (alInsert l k v) k = some v := by
  simp [alInsert, alGet]

theorem alGet_alRemove_ne {α : Type} {k k' : String} (h : k' ≠ k) (l : List (String × α)) :
    alGet (alRemove l k) k' = alGet l k' := by
  induction l with
  | nil => rfl
  | cons p rest ih =>
    obtain ⟨a, v⟩ := p
    by_cases hak : a = k
    · subst hak
      have hne : ¬ a = k' := fun hh => h hh.symm
      simp [alRemove, alGet, hne] at ih ⊢
      exact ih
    · by_cases hak' : a = k'
      · subst hak'
        simp [alRemove, alGet, bne_iff_ne, hak]
      · simp [alRemove, alGet, bne_iff_ne, hak, hak'] at ih ⊢
        exact ih

theorem alGet_alRemove_self {α : Type} (k : String) (l : List (String × α)) :
    alGet (alRemove l k) k = none := by
  induction l with
  | nil => rfl
  | cons p rest ih =>
    obtain ⟨a, v⟩ := p
    by_cases hak : a = k
    · subst hak
      simpa [alRemove, alGet] using ih
    · simp [alRemove, alGet, bne_iff_ne, hak] at ih ⊢
      exact ih

theorem alGet_alInsert_ne {α : Type} {k k' : String} (h : k' ≠ k)
    (l : List (String × α)) (v : α) :
    alGet (alInsert l k v) k' = alGet l k' := by
  have hne : ¬ k = k' := fun hh => h hh.symm
  simp [alInsert, alGet, hne]
  exact alGet_alRemove_ne h l

/-! ## Command-runner lemmas -/

theorem runCommands_nil (exec : String → List String → Bool) :
    runCommands exec [] = (ROut.ok (), []) := rfl

theorem runCommands_append_of_ok (exec : String → List String → Bool) :
    ∀ (pre rest : List String),
    (∀ c ∈ pre, ∃ h t, tokenize c = h :: t ∧ exec h t = true) →
    runCommands exec (pre ++ rest) =
      ((runCommands exec rest).1, pre ++ (runCommands exec rest).2)
  | [], rest, _ => by simp
  | c :: pre, rest, hpre => by
    obtain ⟨h, t, htok, hex⟩ := hpre c (by simp)
    have ih := runCommands_append_of_ok exec pre rest (fun d hd => hpre d (by simp [hd]))
    simp [runCommands, htok, hex, ih]

theorem runCommands_fail_head (exec : String → List String → Bool)
    (fc : String) (post : List String) (fh : String) (ftl : List String)
    (htok : tokenize fc = fh :: ftl) (hfail : exec fh ftl = false) :
    runCommands exec (fc :: post) = (ROut.err (Error.CreateTemplate fh), [fc]) := by
  simp [runCommands, htok, hfail]

theorem runCommands_panic_head (exec : String → List String → Bool)
    (ws : String) (post : List String) (htok : tokenize ws = []) :
    runCommands exec (ws :: post) = (ROut.panic, []) := by
  simp [runCommands, htok]

/-! ## Codec lemmas -/

theorem unpack_archive_cons (e : FsEntry) (ar : List FsEntry) :
    unpack_archive (e :: ar) = unpack_entry e ++ unpack_archive ar := rfl

theorem mem_unpack_archive {x : FsEntry} {ar : List FsEntry} :
    x ∈ unpack_archive ar ↔ ∃ e ∈ ar, x ∈ unpack_entry e := by
  induction ar with
  | nil => simp [unpack_archive]
  | cons a rest ih =>
    rw [unpack_archive_cons, List.mem_append, ih]
    constructor
    · rintro (hx | ⟨e, he, hx⟩)
      · exact ⟨a, List.mem_cons_self a rest, hx⟩
      · exact ⟨e, List.mem_cons_of_mem a he, hx⟩
    · rintro ⟨e, he, hx⟩
      rcases List.mem_cons.mp he with rfl | he
      · exact Or.inl hx
      · exact Or.inr ⟨e, he, hx⟩

theorem mem_unpack_entry {x e : FsEntry} :
    x ∈ unpack_entry e ↔
      (∃ i, i < e.path.length ∧ x = ⟨e.path.take i, EntryData.dir⟩) ∨ x = e := by
  simp only [unpack_entry, properPrefixes, List.mem_append, List.mem_map,
    List.mem_range, List.mem_singleton]
  constructor
  · rintro (⟨q, ⟨i, hi, rfl⟩, rfl⟩ | rfl)
    · exact Or.inl ⟨i, hi, rfl⟩
    · exact Or.inr rfl
  · rintro (⟨i, hi, rfl⟩ | rfl)
    · exact Or.inl ⟨_, ⟨i, hi, rfl⟩, rfl⟩
    · exact Or.inr rfl

theorem mem_create_archive {x : FsEntry} {ms : List (RelPath → Bool)} {t : List FsEntry} :
    x ∈ create_archive ms t ↔ x ∈ t ∧ excludedBy ms x.path = false := by
  simp [create_archive, List.mem_filter]

/-! ## Create and merge lemmas -/

theorem mergeConfig_name (dirBase : String) (name : Option String)
    (description : Option String) (commands : List String) (ignore : List String)
    (defn : Option TemplateDefinition) :
    (mergeConfig dirBase name description commands ignore defn).name =
      some (specFinalName dirBase name defn) := by
  rcases defn with _ | d
  · rcases name with _ | n <;> simp [mergeConfig, specFinalName]
  · rcases name with _ | n
    · rcases hd : d.name with _ | m <;> simp [mergeConfig, specFinalName, hd]
    · simp [mergeConfig, specFinalName]

theorem mergedName_eq_spec (dirBase : String) (name : Option String)
    (description : Option String) (commands : List String) (ignore : List String)
    (defn : Option TemplateDefinition) :
    mergedName dirBase name description commands ignore defn =
      specFinalName dirBase name defn := by
  simp [mergedName, mergeConfig_name]

theorem create_template_ok_state (compile : String → Option (RelPath → Bool)) (s : Sys)
    (tree : List FsEntry) (dirBase : String) (name : Option String)
    (description : Option String) (commands : List String) (ignore : List String)
    (defn : Option TemplateDefinition) (force : Bool) (now : Nat)
    (hok : (create_template compile s tree dirBase name description commands ignore defn
        force now).1 = ROut.ok ()) :
    ∃ ms, compilePatterns compile
        (mergeConfig dirBase name description commands ignore defn).ignore = Except.ok ms ∧
      (create_template compile s tree dirBase name description commands ignore defn
          force now).2.db =
        alInsert s.db (mergedName dirBase name description commands ignore defn)
          { name := mergedName dirBase name description commands ignore defn
            description := (mergeConfig dirBase name description commands ignore defn).description
            commands := (mergeConfig dirBase name description commands ignore defn).commands
            compressed_size := archiveSize (create_archive ms tree)
            created := now
            used := none } ∧
      (create_template compile s tree dirBase name description commands ignore defn
          force now).2.archives =
        alInsert
          (alInsert s.archives (mergedName dirBase name description commands ignore defn)
            ArchiveFile.empty)
          (mergedName dirBase name description commands ignore defn)
          (ArchiveFile.packed (create_archive ms tree)) := by
  simp only [create_template, mergedName] at hok ⊢
  by_cases hc :
      (alContains s.db
        ((mergeConfig dirBase name description commands ignore defn).name.getD dirBase) &&
        !force) = true
  · rw [if_pos hc] at hok
    exact absurd hok (by simp)
  · rw [if_neg hc] at hok ⊢
    rcases hpat : compilePatterns compile
        (mergeConfig dirBase name description commands ignore defn).ignore with p | ms
    · rw [hpat] at hok
      exact absurd hok (by simp)
    · exact ⟨ms, rfl, rfl, rfl⟩

/-! ## Claim theorems -/

/-- Claim C3: on the entry sequence `root, root/a, root/a/b.txt,
root/c.txt` the spec expects `a` under the branch connector `├── `,
`b.txt` under `a`'s continuation plus `└── `, and `c.txt` under a bare
`└── `. The renderer's actual output instead marks `a` with the
last-item connector under a blank continuation (its depth differs from
the previous entry's), and indents `c.txt`; this theorem computes the
real output and shows it differs from the expected one. -/
theorem print_tar_tree_spec_entries_output :
    print_tar_tree [(["root"], true), (["root", "a"], true),
        (["root", "a", "b.txt"], false), (["root", "c.txt"], false)] =
      ["root", "    └── a", "        └── b.txt", "    └── c.txt"] ∧
    print_tar_tree [(["root"], true), (["root", "a"], true),
        (["root", "a", "b.txt"], false), (["root", "c.txt"], false)] ≠
      ["root", "├── a", "│   └── b.txt", "└── c.txt"] := by
  exact ⟨by decide, by decide⟩

/-- Claim C2: Expand without the no-exec flag is required to restore
the prior working directory on every exit path, but when a command
fails the code returns from inside the loop before the restoring
`set_current_dir`: on a stored template whose single command fails, the
outcome is the command error and the process is left in the freshly
created destination `./t`, not in the original `/home/u`. -/
theorem expand_cwd_not_restored_on_command_failure :
    (expand_template (fun _ _ => false) exSysFail "t" none none false 7).1 =
      ROut.err (Error.CreateTemplate "false") ∧
    (expand_template (fun _ _ => false) exSysFail "t" none none false 7).2.1.cwd = "./t" ∧
    (expand_template (fun _ _ => false) exSysFail "t" none none false 7).2.1.cwd ≠
      exSysFail.cwd := by
  exact ⟨by decide, by decide, by decide⟩

/-- Claim C9: when Expand runs a stored command sequence
`pre ++ fc :: post` in which every command of `pre` succeeds and `fc`
is the first command with a non-zero status, the commands run one at a
time in stored order, the outcome is the `CreateTemplate` error naming
`fc`'s executable, and the started commands are exactly `pre ++ [fc]`:
nothing after the failing command is ever started. -/
theorem expand_commands_fail_fast (exec : String → List String → Bool) (s : Sys)
    (name : String) (path : Option String) (ca : Option String) (now : Nat)
    (t0 : Template) (ar : List FsEntry) (pre : List String) (fc : String)
    (post : List String) (fh : String) (ftl : List String)
    (hget : alGet s.db name = some t0)
    (har : alGet s.archives name = some (ArchiveFile.packed ar))
    (hnew : path.getD "." ++ "/" ++ ca.getD name ∉ s.existing)
    (hcmds : t0.commands = pre ++ fc :: post)
    (hpre : ∀ c ∈ pre, ∃ h t, tokenize c = h :: t ∧ exec h t = true)
    (htok : tokenize fc = fh :: ftl) (hfail : exec fh ftl = false) :
    (expand_template exec s name path ca false now).1 = ROut.err (Error.CreateTemplate fh) ∧
    (expand_template exec s name path ca false now).2.2 = pre ++ [fc] := by
  have hrun : runCommands exec t0.commands = (ROut.err (Error.CreateTemplate fh), pre ++ [fc]) := by
    rw [hcmds, runCommands_append_of_ok exec pre (fc :: post) hpre,
      runCommands_fail_head exec fc post fh ftl htok hfail]
  constructor <;> simp [expand_template, hget, har, hnew, hrun]

/-- Witness for C9 on the spec's own sequence `["true","false","true"]`:
the first two commands are started, the third is not, and the outcome
is `CreateTemplate "false"`. -/
theorem expand_commands_fail_fast_witness :
    (expand_template exExecTrue exSysSeq "t" none none false 7).1 =
      ROut.err (Error.CreateTemplate "false") ∧
    (expand_template exExecTrue exSysSeq "t" none none false 7).2.2 = ["true", "false"] :=
  expand_commands_fail_fast exExecTrue exSysSeq "t" none none 7 exTplSeq
    [⟨[], EntryData.dir⟩] ["true"] "false" ["true"] "false" []
    (by decide) (by decide) (by decide) rfl
    (fun c hc => by
      rw [List.mem_singleton] at hc
      subst hc
      exact ⟨"true", [], by decide, by decide⟩)
    (by decide) (by decide)

/-- C10 counterexample: a stored template whose command list contains
the whitespace-only line `" "` on which Expand does not panic, because
the earlier command `doit` exits non-zero and aborts the loop before
the blank line is ever tokenized; the outcome is the `CreateTemplate`
error, not a panic. -/
theorem expand_blank_command_no_panic :
    " " ∈ exTplBlankSecond.commands ∧ tokenize " " = [] ∧
    (expand_template (fun _ _ => false) exSysBlankSecond "t" none none false 7).1 =
      ROut.err (Error.CreateTemplate "doit") ∧
    (expand_template (fun _ _ => false) exSysBlankSecond "t" none none false 7).1 ≠
      ROut.panic := by
  exact ⟨by decide, by decide, by decide, by decide⟩

/-- Claim C10 (amended): when Expand without the no-exec flag reaches a
stored command line that is empty or whitespace-only — that is, all
commands before it exit zero and setup succeeded — tokenizing it
panics (the `unwrap` of the first whitespace token of an empty split)
instead of returning an error. -/
theorem expand_blank_command_panics (exec : String → List String → Bool) (s : Sys)
    (name : String) (path : Option String) (ca : Option String) (now : Nat)
    (t0 : Template) (ar : List FsEntry) (pre : List String) (ws : String)
    (post : List String)
    (hget : alGet s.db name = some t0)
    (har : alGet s.archives name = some (ArchiveFile.packed ar))
    (hnew : path.getD "." ++ "/" ++ ca.getD name ∉ s.existing)
    (hcmds : t0.commands = pre ++ ws :: post)
    (hpre : ∀ c ∈ pre, ∃ h t, tokenize c = h :: t ∧ exec h t = true)
    (htok : tokenize ws = []) :
    (expand_template exec s name path ca false now).1 = ROut.panic := by
  have hrun : runCommands exec t0.commands = (ROut.panic, pre) := by
    rw [hcmds, runCommands_append_of_ok exec pre (ws :: post) hpre,
      runCommands_panic_head exec ws post htok]
    simp
  simp [expand_template, hget, har, hnew, hrun]

/-- Witness for the amended C10: a template whose first command line is
empty makes Expand panic. -/
theorem expand_blank_command_panics_witness :
    (expand_template exExecTrue exSysBlank "t" none none false 7).1 = ROut.panic :=
  expand_blank_command_panics exExecTrue exSysBlank "t" none none 7 exTplBlank
    [⟨[], EntryData.dir⟩] [] "" []
    (by decide) (by decide) (by decide) rfl
    (fun c hc => absurd hc (List.not_mem_nil c))
    (by decide)

/-- Claim C4: a record freshly inserted by a successful Create has no
`used` timestamp; and an Expand of a stored template writes the record
back with `used := now` — and that write survives into the final store
on every outcome (destination collision, missing or corrupt artifact,
command failure, panic, success), because it is persisted before
extraction is attempted; under a monotone clock the `used` field never
decreases. -/
theorem used_timestamp_tracking :
    (∀ (compile : String → Option (RelPath → Bool)) (s : Sys) (tree : List FsEntry)
        (dirBase : String) (name : Option String) (description : Option String)
        (commands : List String) (ignore : List String)
        (defn : Option TemplateDefinition) (force : Bool) (now : Nat),
      (create_template compile s tree dirBase name description commands ignore defn
          force now).1 = ROut.ok () →
      ∃ tpl,
        alGet (create_template compile s tree dirBase name description commands ignore defn
            force now).2.db (mergedName dirBase name description commands ignore defn) =
          some tpl ∧ tpl.used = none) ∧
    (∀ (exec : String → List String → Bool) (s : Sys) (name : String)
        (path : Option String) (ca : Option String) (noExec : Bool) (now : Nat)
        (t0 : Template),
      alGet s.db name = some t0 →
      (∀ u ∈ t0.used, u ≤ now) →
      alGet (expand_template exec s name path ca noExec now).2.1.db name =
          some { t0 with used := some now } ∧
      timeLe t0.used (some now)) := by
  constructor
  · intro compile s tree dirBase name description commands ignore defn force now hok
    obtain ⟨ms, _, hdb, _⟩ := create_template_ok_state compile s tree dirBase name
      description commands ignore defn force now hok
    rw [hdb]
    exact ⟨_, alGet_alInsert_self _ _ _, rfl⟩
  · intro exec s name path ca noExec now t0 hget hclock
    constructor
    · simp only [expand_template, hget]
      repeat' split
      all_goals simp [alGet_alInsert_self]
    · rcases ht : t0.used with _ | u
      · simp [timeLe]
      · simp only [timeLe]
        exact hclock u (by simp [ht])

/-- Witness for C4: creating the template `n` in the empty system
stores it with `used = none`, and expanding the stored template of
`exSysFail` at time 7 (its single command failing) leaves
`used = some 7` in the store, not less than the prior absent value. -/
theorem used_timestamp_tracking_witness :
    (∃ tpl,
      alGet (create_template exCompileAll exSysEmpty exTree "n" none none [] [] none
          false 5).2.db (mergedName "n" none none [] [] none) = some tpl ∧
        tpl.used = none) ∧
    (alGet (expand_template (fun _ _ => false) exSysFail "t" none none false 7).2.1.db "t" =
        some { exTplFail with used := some 7 } ∧
      timeLe exTplFail.used (some 7)) :=
  ⟨used_timestamp_tracking.1 exCompileAll exSysEmpty exTree "n" none none [] [] none
      false 5 (by decide),
    used_timestamp_tracking.2 (fun _ _ => false) exSysFail "t" none none false 7 exTplFail
      (by decide) (by simp [exTplFail])⟩

/-- Claim C5: a Create whose final merged name is already a key of the
store fails with `TemplateExists` and changes nothing when `force` is
false; with `force` it succeeds and the store and the archives
directory both map that name to the freshly built record and artifact,
replacing the previous ones. -/
theorem create_existing_name_force_semantics :
    (∀ (compile : String → Option (RelPath → Bool)) (s : Sys) (tree : List FsEntry)
        (dirBase : String) (name : Option String) (description : Option String)
        (commands : List String) (ignore : List String)
        (defn : Option TemplateDefinition) (now : Nat),
      alContains s.db (mergedName dirBase name description commands ignore defn) = true →
      create_template compile s tree dirBase name description commands ignore defn
          false now =
        (ROut.err (Error.TemplateExists
            (mergedName dirBase name description commands ignore defn)), s)) ∧
    (∀ (compile : String → Option (RelPath → Bool)) (s : Sys) (tree : List FsEntry)
        (dirBase : String) (name : Option String) (description : Option String)
        (commands : List String) (ignore : List String)
        (defn : Option TemplateDefinition) (now : Nat)
        (ms : List (RelPath → Bool)),
      compilePatterns compile
          (mergeConfig dirBase name description commands ignore defn).ignore =
        Except.ok ms →
      (create_template compile s tree dirBase name description commands ignore defn
          true now).1 = ROut.ok () ∧
      alGet (create_template compile s tree dirBase name description commands ignore defn
          true now).2.db (mergedName dirBase name description commands ignore defn) =
        some { name := mergedName dirBase name description commands ignore defn
               description := (mergeConfig dirBase name description commands ignore defn).description
               commands := (mergeConfig dirBase name description commands ignore defn).commands
               compressed_size := archiveSize (create_archive ms tree)
               created := now
               used := none } ∧
      alGet (create_template compile s tree dirBase name description commands ignore defn
          true now).2.archives (mergedName dirBase name description commands ignore defn) =
        some (ArchiveFile.packed (create_archive ms tree))) := by
  constructor
  · intro compile s tree dirBase name description commands ignore defn now hmem
    simp only [mergedName] at hmem
    simp [create_template, mergedName, hmem]
  · intro compile s tree dirBase name description commands ignore defn now ms hpat
    simp only [create_template, mergedName, Bool.not_true, Bool.and_false]
    rw [if_neg (by simp), hpat]
    exact ⟨rfl, alGet_alInsert_self _ _ _, alGet_alInsert_self _ _ _⟩

/-- Witness for C5: the name `t` is already stored in `exSysFail`, so a
forceless Create under that merged name fails with `TemplateExists` and
returns the state unchanged, while a forced Create succeeds and
re-points both the record and the artifact for `t`. -/
theorem create_existing_name_force_semantics_witness :
    create_template exCompileAll exSysFail exTree "t" none none [] [] none false 9 =
      (ROut.err (Error.TemplateExists (mergedName "t" none none [] [] none)), exSysFail) ∧
    ((create_template exCompileAll exSysFail exTree "t" none none [] [] none true 9).1 =
        ROut.ok () ∧
      alGet (create_template exCompileAll exSysFail exTree "t" none none [] [] none
          true 9).2.db (mergedName "t" none none [] [] none) =
        some { name := mergedName "t" none none [] [] none
               description := (mergeConfig "t" none none [] [] none).description
               commands := (mergeConfig "t" none none [] [] none).commands
               compressed_size := archiveSize (create_archive [] exTree)
               created := 9
               used := none } ∧
      alGet (create_template exCompileAll exSysFail exTree "t" none none [] [] none
          true 9).2.archives (mergedName "t" none none [] [] none) =
        some (ArchiveFile.packed (create_archive [] exTree))) :=
  ⟨create_existing_name_force_semantics.1 exCompileAll exSysFail exTree "t" none none
      [] [] none 9 (by decide),
    create_existing_name_force_semantics.2 exCompileAll exSysFail exTree "t" none none
      [] [] none 9 [] rfl⟩

/-- C6 counterexample: a Create in the empty system with the single
non-compiling pattern `[` aborts with the pattern error and inserts no
record, but it does produce an artifact: the archive file for `t` has
already been created (empty) before the patterns are compiled, where no
file existed before. -/
theorem create_invalid_pattern_leaves_artifact :
    (create_template exCompileNone exSysEmpty exTree "t" none none [] ["["] none
        false 0).1 = ROut.err (Error.InvalidPattern "[") ∧
    (create_template exCompileNone exSysEmpty exTree "t" none none [] ["["] none
        false 0).2.db = exSysEmpty.db ∧
    alGet exSysEmpty.archives "t" = none ∧
    alGet (create_template exCompileNone exSysEmpty exTree "t" none none [] ["["] none
        false 0).2.archives "t" = some ArchiveFile.empty := by
  exact ⟨by decide, by decide, by decide, by decide⟩

/-- Claim C6 (amended): when some ignore pattern fails to compile, the
whole Create aborts with that pattern's compilation error and no
metadata record is inserted; no archive content is written, but the
artifact file itself has already been created (or an existing one
truncated) empty at the target path, because `File::create` runs before
the patterns are compiled. -/
theorem create_invalid_pattern_aborts (compile : String → Option (RelPath → Bool))
    (s : Sys) (tree : List FsEntry) (dirBase : String) (name : Option String)
    (description : Option String) (commands : List String) (ignore : List String)
    (defn : Option TemplateDefinition) (force : Bool) (now : Nat) (p : String)
    (hguard : (alContains s.db (mergedName dirBase name description commands ignore defn) &&
        !force) = false)
    (hpat : compilePatterns compile
        (mergeConfig dirBase name description commands ignore defn).ignore =
      Except.error p) :
    create_template compile s tree dirBase name description commands ignore defn
        force now =
      (ROut.err (Error.InvalidPattern p),
        { s with archives := alInsert s.archives (mergedName dirBase name description commands ignore defn) ArchiveFile.empty }) ∧
    (create_template compile s tree dirBase name description commands ignore defn
        force now).2.db = s.db := by
  simp only [mergedName] at hguard
  constructor
  · simp only [create_template, mergedName]
    rw [if_neg (by simp [hguard]), hpat]
  · simp only [create_template, mergedName]
    rw [if_neg (by simp [hguard]), hpat]

/-- Witness for the amended C6: the counterexample instance, derived
from the general theorem. -/
theorem create_invalid_pattern_aborts_witness :
    create_template exCompileNone exSysEmpty exTree "t" none none [] ["["] none false 0 =
      (ROut.err (Error.InvalidPattern "["),
        { exSysEmpty with archives := alInsert exSysEmpty.archives (mergedName "t" none none [] ["["] none) ArchiveFile.empty }) ∧
    (create_template exCompileNone exSysEmpty exTree "t" none none [] ["["] none
        false 0).2.db = exSysEmpty.db :=
  create_invalid_pattern_aborts exCompileNone exSysEmpty exTree "t" none none [] ["["]
    none false 0 "[" (by decide) rfl

/-- Claim C7: an Edit of a stored template (with a successful editor
round-trip producing `edited`) keeps `compressed_size`, `created` and
`used` from the original record (the record stores no `ignore` field,
so nothing else is retained), replaces name, description and commands
with the edited values, persists the result under the original store
key — a changed name is not re-keyed, the new name's key is untouched —
and renames the artifact file to the edited name. All of this holds on
every outcome; the outcome itself comes from the trailing listing of
the edited name: a same-name edit returns ok, while a changed name that
is not a store key makes the final commands listing miss and Edit
surfaces `TemplateNotFound` for the new name, the updates already
persisted. -/
theorem edit_preserves_fields_and_key (s : Sys) (name : String)
    (edited : TemplateEditFile) (t : Template) (a : ArchiveFile)
    (hget : alGet s.db name = some t) (har : alGet s.archives name = some a) :
    alGet (edit_template s name edited).2.db name =
      some { name := edited.name
             description := edited.description
             commands := edited.commands
             compressed_size := t.compressed_size
             created := t.created
             used := t.used } ∧
    (edited.name ≠ name →
      alGet (edit_template s name edited).2.db edited.name = alGet s.db edited.name) ∧
    alGet (edit_template s name edited).2.archives edited.name = some a ∧
    (edited.name ≠ name → alGet (edit_template s name edited).2.archives name = none) ∧
    (edited.name = name → (edit_template s name edited).1 = ROut.ok ()) ∧
    (edited.name ≠ name → alGet s.db edited.name = none →
      (edit_template s name edited).1 = ROut.err (Error.TemplateNotFound edited.name)) := by
  have hstate : (edit_template s name edited).2 =
      { s with
        db := alInsert s.db name
          { name := edited.name
            description := edited.description
            commands := edited.commands
            compressed_size := t.compressed_size
            created := t.created
            used := t.used }
        archives := alInsert (alRemove s.archives name) edited.name a } := by
    simp only [edit_template, hget, har]
    split <;> rfl
  refine ⟨?_, ?_, ?_, ?_, ?_, ?_⟩
  · rw [hstate]
    exact alGet_alInsert_self _ _ _
  · intro hne
    rw [hstate]
    exact alGet_alInsert_ne hne _ _
  · rw [hstate]
    exact alGet_alInsert_self _ _ _
  · intro hne
    rw [hstate]
    rw [alGet_alInsert_ne (Ne.symm hne)]
    exact alGet_alRemove_self _ _
  · intro heq
    subst heq
    simp [edit_template, hget, har, alGet_alInsert_self]
  · intro hne hnone
    simp [edit_template, hget, har, alGet_alInsert_ne hne, hnone]

/-- Witness for C7: editing the stored template `t` of `exSysFail` to
the name `u` keeps size 3 and the timestamps, stores the update under
the key `t`, leaves the key `u` absent from the store, moves the
artifact from `t` to `u`, and — since `u` is not a store key — returns
the `TemplateNotFound` error of the trailing commands listing. -/
theorem edit_preserves_fields_and_key_witness :
    alGet (edit_template exSysFail "t" ⟨"u", some "d", ["x"]⟩).2.db "t" =
      some { name := "u", description := some "d", commands := ["x"],
             compressed_size := exTplFail.compressed_size,
             created := exTplFail.created, used := exTplFail.used } ∧
    ("u" ≠ "t" →
      alGet (edit_template exSysFail "t" ⟨"u", some "d", ["x"]⟩).2.db "u" =
        alGet exSysFail.db "u") ∧
    alGet (edit_template exSysFail "t" ⟨"u", some "d", ["x"]⟩).2.archives "u" =
      some (ArchiveFile.packed [⟨[], EntryData.dir⟩]) ∧
    ("u" ≠ "t" →
      alGet (edit_template exSysFail "t" ⟨"u", some "d", ["x"]⟩).2.archives "t" = none) ∧
    ("u" = "t" → (edit_template exSysFail "t" ⟨"u", some "d", ["x"]⟩).1 = ROut.ok ()) ∧
    ("u" ≠ "t" → alGet exSysFail.db "u" = none →
      (edit_template exSysFail "t" ⟨"u", some "d", ["x"]⟩).1 =
        ROut.err (Error.TemplateNotFound "u")) :=
  edit_preserves_fields_and_key exSysFail "t" ⟨"u", some "d", ["x"]⟩ exTplFail
    (ArchiveFile.packed [⟨[], EntryData.dir⟩]) (by decide) (by decide)

/-- Claim C8: the name Create finally stores follows the precedence
CLI name, else definition name, else the source directory's final path
component: the code's merged name equals the spec's precedence formula,
and a successful Create stores a record carrying that very name under
that key. -/
theorem create_name_precedence (compile : String → Option (RelPath → Bool)) (s : Sys)
    (tree : List FsEntry) (dirBase : String) (name : Option String)
    (description : Option String) (commands : List String) (ignore : List String)
    (defn : Option TemplateDefinition) (force : Bool) (now : Nat)
    (hok : (create_template compile s tree dirBase name description commands ignore defn
        force now).1 = ROut.ok ()) :
    mergedName dirBase name description commands ignore defn =
      specFinalName dirBase name defn ∧
    ∃ tpl,
      alGet (create_template compile s tree dirBase name description commands ignore defn
          force now).2.db (specFinalName dirBase name defn) = some tpl ∧
      tpl.name = specFinalName dirBase name defn := by
  have hspec := mergedName_eq_spec dirBase name description commands ignore defn
  obtain ⟨ms, _, hdb, _⟩ := create_template_ok_state compile s tree dirBase name
    description commands ignore defn force now hok
  refine ⟨hspec, ?_⟩
  rw [hdb, ← hspec]
  exact ⟨_, alGet_alInsert_self _ _ _, rfl⟩

/-- Witness for C8, the spec's own scenario: a Create with CLI name
`foo` and a definition document naming `bar` stores a record named
`foo`. -/
theorem create_name_precedence_witness :
    mergedName "dir" (some "foo") none [] [] (some exDefnBar) =
      specFinalName "dir" (some "foo") (some exDefnBar) ∧
    ∃ tpl,
      alGet (create_template exCompileAll exSysEmpty exTree "dir" (some "foo") none [] []
          (some exDefnBar) false 3).2.db
          (specFinalName "dir" (some "foo") (some exDefnBar)) = some tpl ∧
      tpl.name = specFinalName "dir" (some "foo") (some exDefnBar) :=
  create_name_precedence exCompileAll exSysEmpty exTree "dir" (some "foo") none [] []
    (some exDefnBar) false 3 (by decide)

/-- C1 counterexample: with the compilable ignore set matching exactly
the directory `sub` of `exTree` (and not its contents), the walk still
descends into `sub`, so the archive keeps `sub/f`, and unpacking
recreates `sub` as the file's parent: the decoded entry set contains
the excluded directory `sub` and is therefore not exactly the filtered
set. -/
theorem create_expand_roundtrip_not_exact :
    ¬ (∀ x : FsEntry,
      x ∈ unpack_archive (create_archive exMatchExact exTree) ↔
        x ∈ create_archive exMatchExact exTree) := by
  intro h
  have h1 := (h ⟨["sub"], EntryData.dir⟩).mp (by decide)
  exact absurd h1 (by decide)

/-- Claim C1 (amended): for every well-formed directory tree and every
set of compiled ignore matchers whose exclusions are descendant-closed
on the tree (excluding a directory excludes everything under it),
building the archive from the filtered walk and then unpacking it
reproduces exactly the set of non-excluded entries relative to the
source root — paths, kinds and file contents. Without
descendant-closedness the extractor may additionally recreate excluded
ancestor directories of retained entries. -/
theorem create_expand_roundtrip (ms : List (RelPath → Bool)) (t : List FsEntry)
    (hwf : wfTree t) (hdc : descClosed ms t) (x : FsEntry) :
    x ∈ unpack_archive (create_archive ms t) ↔ x ∈ create_archive ms t := by
  constructor
  · intro hx
    rcases mem_unpack_archive.mp hx with ⟨e, he, hmem⟩
    have heT := mem_create_archive.mp he
    rcases mem_unpack_entry.mp hmem with ⟨i, hi, rfl⟩ | rfl
    · obtain ⟨e', he't, hpath, hdata⟩ := hwf.2 e heT.1 i hi
      have hx' : e' = (⟨e.path.take i, EntryData.dir⟩ : FsEntry) := by
        cases e'
        simp_all
      have hexcl : excludedBy ms (e.path.take i) = false := by
        by_contra hcon
        rw [Bool.not_eq_false] at hcon
        have hbad := hdc e heT.1 i hi hcon
        rw [heT.2] at hbad
        exact Bool.false_ne_true hbad
      exact mem_create_archive.mpr ⟨hx' ▸ he't, hexcl⟩
    · exact he
  · intro hx
    exact mem_unpack_archive.mpr ⟨x, hx, mem_unpack_entry.mpr (Or.inr rfl)⟩

/-- Witness for the amended C1: on `exTree` with the descendant-closed
exclusion of the whole `sub` subtree, the root entry round-trips. -/
theorem create_expand_roundtrip_witness :
    (⟨[], EntryData.dir⟩ : FsEntry) ∈
        unpack_archive (create_archive exMatchSubtree exTree) ↔
      (⟨[], EntryData.dir⟩ : FsEntry) ∈ create_archive exMatchSubtree exTree :=
  create_expand_roundtrip exMatchSubtree exTree (by decide) (by decide)
    ⟨[], EntryData.dir⟩

end Templater
